import Mathlib

/-!
Verification development for the journal storage-record decoder and
versioned-file reconciliation engine of `google/perforce-utils`
(`p4_find_missing_files` and `p4_storage_to_csv`).

The Go sources are embedded shallowly: Go strings are modeled as Lean
`String` (Go indexes bytes; all strings the claims touch are ASCII, where
byte indices and character indices coincide), Go `map[string]int` used as a
set is modeled as a duplicate-free `List String`, Go machine integers are
modeled as `Int`/`Nat` with the explicit range checks that
`strconv.Atoi`/`ParseInt`/`ParseUint` perform, and a Go runtime panic
(out-of-range slice index) is modeled as `none`/a dedicated `panicked`
result.
-/

set_option maxHeartbeats 1000000
set_option linter.unusedVariables false

/-! ## Go standard-library string operations, modeled at character level -/

/-- Model of Go `strings.Split(s, " ")` on the character list: splits at every
single space, keeping empty fields; the result is never empty. -/
def goSplitSp : List Char → List (List Char)
  | [] => [[]]
  | c :: cs =>
      if c = ' ' then [] :: goSplitSp cs
      else
        match goSplitSp cs with
        | [] => [[c]]
        | t :: ts => (c :: t) :: ts

/-- Model of Go `strings.Join(parts, " ")` on character lists. -/
def joinSp : List (List Char) → List Char
  | [] => []
  | [t] => t
  | t :: t' :: ts => t ++ ' ' :: joinSp (t' :: ts)

/-- Model of Go `strings.Split(line, " ")`. -/
def goSplit (line : String) : List String :=
  (goSplitSp line.data).map (fun l => (⟨l⟩ : String))

/-- Model of Go `strings.Join(xs, " ")`. -/
def goJoinSp (xs : List String) : String :=
  ⟨joinSp (xs.map String.data)⟩

/-- Model of Go `strings.Trim(s, string(c))`: removes all leading and trailing
occurrences of the character `c`. -/
def goTrimChar (s : String) (c : Char) : String :=
  ⟨((s.data.dropWhile (· = c)).reverse.dropWhile (· = c)).reverse⟩

/-- Model of Go `strings.HasPrefix`. -/
def goStartsWith (s p : String) : Bool :=
  p.data.isPrefixOf s.data

/-- Model of Go `strings.HasSuffix`. -/
def goHasSuffix (s p : String) : Bool :=
  p.data.isSuffixOf s.data

/-- Model of Go `strings.ToLower` (ASCII; the inputs in all claims are
ASCII, where the Unicode-aware lowering of Go agrees with per-character
ASCII lowering). -/
def goToLower (s : String) : String :=
  ⟨s.data.map Char.toLower⟩

/-- Remove the first occurrence of `pat` from `cs` (helper for Go
`strings.Replace(s, pat, "", 1)`). -/
def removeFirstOcc : List Char → List Char → List Char
  | cs, [] => cs
  | [], _ => []
  | c :: cs, pat =>
      if pat.isPrefixOf (c :: cs) then (c :: cs).drop pat.length
      else c :: removeFirstOcc cs pat

/-- Model of Go `strings.Replace(s, pat, "", 1)`. -/
def goReplaceFirst (s pat : String) : String :=
  ⟨removeFirstOcc s.data pat.data⟩

/-- Model of Go `strings.ReplaceAll(s, "\\", "/")`. -/
def replaceBackslash (s : String) : String :=
  ⟨s.data.map (fun c => if c = '\\' then '/' else c)⟩

/-- Model of a Go slice expression `xs[lo:hi]`: the kernel requires
`0 ≤ lo ≤ hi ≤ len(xs)` and panics otherwise; the panic is `none`. -/
def goSlice (xs : List String) (lo hi : Int) : Option (List String) :=
  if 0 ≤ lo ∧ lo ≤ hi ∧ hi ≤ (xs.length : Int) then
    some ((xs.drop lo.toNat).take (hi - lo).toNat)
  else none

/-- Model of a Go string slice expression `s[lo:hi]` (byte indices in Go;
character indices here — identical on the ASCII strings of the claims).
A panic (out-of-range bounds) is `none`. -/
def goStrSlice (s : String) (lo hi : Int) : Option String :=
  if 0 ≤ lo ∧ lo ≤ hi ∧ hi ≤ (s.length : Int) then
    some ⟨(s.data.drop lo.toNat).take (hi - lo).toNat⟩
  else none

/-- Parse a nonempty all-digit character list as a natural number
(helper for the `strconv` models). -/
def parseDigits (cs : List Char) : Option Nat :=
  if cs = [] then none
  else if cs.all Char.isDigit then
    some (cs.foldl (fun n c => n * 10 + (c.toNat - 48)) 0)
  else none

/-- Model of Go `strconv.Atoi` = `strconv.ParseInt(s, 10, 0)` on a 64-bit
platform (also used for the explicit `ParseInt(s, 10, 64)` calls in the source):
an optional single sign, then decimal digits; errors (here `none`) on the
empty string, on non-digits, and when the value overflows `int64`. -/
def goAtoi (s : String) : Option Int :=
  match s.data with
  | [] => none
  | '+' :: rest =>
      (parseDigits rest).bind (fun n => if n ≤ 2 ^ 63 - 1 then some (n : Int) else none)
  | '-' :: rest =>
      (parseDigits rest).bind (fun n => if n ≤ 2 ^ 63 then some (-(n : Int)) else none)
  | l =>
      (parseDigits l).bind (fun n => if n ≤ 2 ^ 63 - 1 then some (n : Int) else none)

/-- Model of Go `strconv.ParseUint(s, 10, 64)`: decimal digits only, no sign
permitted; errors (here `none`) on empty input, non-digits, and values
`≥ 2^64`. -/
def goParseUint64 (s : String) : Option Nat :=
  (parseDigits s.data).bind (fun n => if n ≤ 2 ^ 64 - 1 then some n else none)

example : goSplit "a  b c" = ["a", "", "b", "c"] := by decide
example : goSplit "" = [""] := by decide
example : goJoinSp ["a", "", "b"] = "a  b" := by decide
example : goTrimChar "@@x@y@@" '@' = "x@y" := by decide
example : goAtoi "-17" = some (-17) := by decide
example : goAtoi "+4" = some 4 := by decide
example : goAtoi "x" = none := by decide
example : goParseUint64 "-17" = none := by decide
example : goParseUint64 "17" = some 17 := by decide
example : goStrSlice "#123#" 1 4 = some "123" := by decide
example : goSlice ["a", "b", "c"] 3 2 = none := by decide
example : goReplaceFirst "/d/a,v" "/d" = "/a,v" := by decide

/-! ## p4_find_missing_files (src/unnamed/part_000) -/

/-- The `ServerStorageType` constants (part_000 lines 38-50); Go `int`. -/
def RCSStorageType : Int := 0

def BinaryStorageType : Int := 1

def TinyStorageType : Int := 2

def CompressedStorageType : Int := 3

def TempObjStorageType : Int := 4

def DetectTypeStorageType : Int := 5

def CompressedTempObj : Int := 6

def BinaryAccessStorageType : Int := 7

def ExternalStorageType : Int := 8

/-- part_000 line 55 / p4_storage_to_csv.go line 52: journal entry type,
version and table name (3 fields) plus the 9 db.storage fields. -/
def DbStorageJournalFieldCount : Nat := 12

/-- part_000 `registerExistingPath` (lines 58-65); the Go `map[string]int`
used as a set becomes a duplicate-free list of keys. -/
def registerExistingPath (filemap : List String) (value : String) (caseSensitive : Bool) :
    List String :=
  let valueToAdd := if caseSensitive then value else goToLower value
  if valueToAdd ∈ filemap then filemap else filemap ++ [valueToAdd]

/-- part_000 `pathExistsOnDisk` (lines 67-76). -/
def pathExistsOnDisk (filemap : List String) (value : String) (caseSensitive : Bool) : Bool :=
  if caseSensitive then decide (value ∈ filemap) else decide (goToLower value ∈ filemap)

/-- part_000 line 87: `sentinelBuffer = {"text", "@@", "log"}`. -/
def sentinelBuffer : List String := ["text", "@@", "log"]

/-- State of the `readVersionsFromRCS` loop: the 4-entry circular buffer
(always of length 4), the write position and the filemap being filled. -/
structure RcsSt where
  buf : List String
  pos : Nat
  filemap : List String

/-- The backward comparison loop of part_000 lines 102-109: compare
circular-buffer entries from `testIndex` backwards (with wraparound at 0 to
index 3) against successive sentinel entries; `some t` is the final
`testIndex` after a full match (loop exit with `scanIndex == 3`), `none`
means some comparison failed first. -/
def sentinelScan (buf : List String) : List String → Nat → Option Nat
  | [], t => some t
  | s :: rest, t =>
      if buf.getD t "" = s then
        sentinelScan buf rest (if t = 0 then 3 else t - 1)
      else none

/-- One iteration of the scanner loop of part_000 `readVersionsFromRCS`
(lines 93-114): write the line into the circular buffer, advance the
position and, on a `text` line, run the backward sentinel match and register
the revision line found below the matched run. -/
def rcsStep (caseSensitive : Bool) (normalizedPath : String) (st : RcsSt) (line : String) :
    RcsSt :=
  let buf := st.buf.set st.pos line
  let pos := (st.pos + 1) % 4
  if line = "text" then
    let testIndex := if pos = 0 then 3 else pos - 1
    match sentinelScan buf sentinelBuffer testIndex with
    | some t =>
        ⟨buf, pos,
          registerExistingPath st.filemap (normalizedPath ++ "/" ++ buf.getD t "") caseSensitive⟩
    | none => ⟨buf, pos, st.filemap⟩
  else ⟨buf, pos, st.filemap⟩

/-- part_000 `readVersionsFromRCS` (lines 79-117) on an already-opened RCS
container given as its list of lines; the circular buffer starts as four
empty strings (Go zero values). -/
def readVersionsFromRCS (lines : List String) (normalizedPath : String)
    (caseSensitive : Bool) (filemap : List String) : List String :=
  (lines.foldl (rcsStep caseSensitive normalizedPath) ⟨["", "", "", ""], 0, filemap⟩).filemap

/-- part_000 path normalization (line 137): strip the depot path (first
occurrence), backslashes to forward slashes, trim slashes, prefix `//`. -/
def normalizePath (depotPath osPathname : String) : String :=
  "//" ++ goTrimChar (replaceBackslash (goReplaceFirst osPathname depotPath)) '/'

/-- One entry yielded by the external tree walker. -/
structure DirEntry where
  path : String
  isDir : Bool

inductive WalkErr
  | rootFail
  | rcsOpen (path : String)
deriving DecidableEq

/-- The walk callback of part_000 `listVersionedFiles` (lines 128-146).
`fs` maps an on-disk path to its lines; `none` means the file cannot be
opened, in which case `readVersionsFromRCS` (lines 81-84) returns an error
that the callback wraps and returns to the walker. -/
def walkCallback (depotPath : String) (caseSensitive : Bool)
    (fs : String → Option (List String)) (filemap : List String) (e : DirEntry) :
    Except WalkErr (List String) :=
  if e.isDir then .ok filemap
  else
    let normalizedPath := normalizePath depotPath e.path
    if goHasSuffix normalizedPath ",v" then
      match fs e.path with
      | none => .error (.rcsOpen e.path)
      | some lines => .ok (readVersionsFromRCS lines normalizedPath caseSensitive filemap)
    else .ok (registerExistingPath filemap normalizedPath caseSensitive)

/-- The documented contract of `godirwalk.Walk`, used by part_000 line 127:
entries are visited in sequence and the walk halts at the first callback
returning an error, which `Walk` then returns; registrations made by earlier
callbacks remain in the filemap. -/
def walkEntries (depotPath : String) (caseSensitive : Bool)
    (fs : String → Option (List String)) :
    List DirEntry → List String → List String × Option WalkErr
  | [], filemap => (filemap, none)
  | e :: es, filemap =>
      match walkCallback depotPath caseSensitive fs filemap e with
      | .ok filemap' => walkEntries depotPath caseSensitive fs es filemap'
      | .error err => (filemap, some err)

/-- part_000 `listVersionedFiles` (lines 120-150). `walkInput = none` models
the filesystem root not being walkable at all (godirwalk fails before any
callback runs and the filemap stays empty). -/
def listVersionedFiles (depotPath : String) (caseSensitive : Bool)
    (fs : String → Option (List String)) (walkInput : Option (List DirEntry)) :
    List String × Option WalkErr :=
  match walkInput with
  | none => ([], some .rootFail)
  | some entries => walkEntries depotPath caseSensitive fs entries []

/-- Result of one iteration of the part_000 journal-scanner loop up to the
extraction of the file type (lines 165-192). -/
inductive FMOutcome
  | skippedPrefilter
  | panicked
  | filteredOut (filename : String)
  | badFileType (filename revision : String)
  | record (filename revision : String) (fileType : Int)
deriving DecidableEq

/-- The filename extracted by the scanner, when the line got far enough for
one to exist. -/
def FMOutcome.filenameOf : FMOutcome → Option String
  | .filteredOut filename => some filename
  | .badFileType filename _ => some filename
  | .record filename _ _ => some filename
  | _ => none

/-- One loop iteration of part_000 `processDbStorageEntries` (lines 165-192):
structural pre-filters, `filenameExtraPartCount := len(parts) - 12`, the
slice `parts[3 : 3+extra]` (a Go panic when the bounds are invalid),
filename reassembly and `@`-trim, the `-filter` prefix check, then revision
and file type (`strconv.Atoi`) at offsets `3+extra` and `4+extra`. -/
def fmScanParts (filt : String) (parts : List String) : FMOutcome :=
  if parts.length < 4 then .skippedPrefilter
  else if parts.getD 0 "" ≠ "@pv@" then .skippedPrefilter
  else if parts.getD 2 "" ≠ "@db.storage@" then .skippedPrefilter
  else
    let filenameExtraPartCount : Int := (parts.length : Int) - (DbStorageJournalFieldCount : Int)
    match goSlice parts 3 (3 + filenameExtraPartCount) with
    | none => .panicked
    | some fnParts =>
      let filename := goTrimChar (goJoinSp fnParts) '@'
      if 0 < filt.length ∧ ¬ goStartsWith filename filt then .filteredOut filename
      else
        let revision := parts.getD (3 + filenameExtraPartCount).toNat ""
        match goAtoi (parts.getD (4 + filenameExtraPartCount).toNat "") with
        | none => .badFileType filename revision
        | some fileType => .record filename revision fileType

/-- One loop iteration of part_000 `processDbStorageEntries` (lines 165-192):
split the line on spaces, then run the token-level scanner. -/
def fmScanLine (filt : String) (line : String) : FMOutcome :=
  fmScanParts filt (goSplit line)

/-- Go `fileType & 0xF` on an `int` (part_000 line 194): a twos-complement
AND with the low mask `0xF` equals the nonnegative remainder modulo 16. -/
def serverStorageTypeOf (fileType : Int) : Int := fileType.emod 16

/-- The per-record verification of part_000 `processDbStorageEntries`
(lines 194-214): decode the server storage type, strip the revision
delimiters via the Go slice `revision[1:len(revision)-1]` (`none` models the
Go panic when the revision has fewer than 2 characters), build the expected
path (`,v/` for RCS, `,d/` otherwise) and look it and its `.gz` variant up
in the filemap. Returns the constructed path and whether it was missing. -/
def verifyRecord (filemap : List String) (caseSensitive : Bool)
    (filename revision : String) (fileType : Int) : Option (String × Bool) :=
  let serverFileType := serverStorageTypeOf fileType
  match goStrSlice revision 1 ((revision.length : Int) - 1) with
  | none => none
  | some rev =>
      let versionedFilePath :=
        if serverFileType = RCSStorageType then filename ++ ",v/" ++ rev
        else filename ++ ",d/" ++ rev
      if pathExistsOnDisk filemap versionedFilePath caseSensitive then
        some (versionedFilePath, false)
      else if pathExistsOnDisk filemap (versionedFilePath ++ ".gz") caseSensitive then
        some (versionedFilePath, false)
      else some (versionedFilePath, true)

/-- Full effect of one line on the part_000 scanner loop: `none` models a Go
panic aborting the run, `some (a, b)` the increments applied to
`fileCount` and `missingCount`. -/
def fmLineEffect (filemap : List String) (caseSensitive : Bool) (filt : String)
    (line : String) : Option (Nat × Nat) :=
  match fmScanLine filt line with
  | .skippedPrefilter => some (0, 0)
  | .panicked => none
  | .filteredOut _ => some (0, 0)
  | .badFileType _ _ => some (0, 0)
  | .record filename revision fileType =>
      match verifyRecord filemap caseSensitive filename revision fileType with
      | none => none
      | some (_, true) => some (1, 1)
      | some (_, false) => some (1, 0)

/-- part_000 `processDbStorageEntries` (lines 153-221) on an opened journal:
fold the per-line effect, stopping at a panic; yields the final
`(fileCount, missingCount)`. -/
def processDbStorageEntries (filemap : List String) (caseSensitive : Bool)
    (filt : String) : List String → Nat → Nat → Option (Nat × Nat)
  | [], fileCount, missingCount => some (fileCount, missingCount)
  | line :: rest, fileCount, missingCount =>
      match fmLineEffect filemap caseSensitive filt line with
      | none => none
      | some (a, b) =>
          processDbStorageEntries filemap caseSensitive filt rest (fileCount + a)
            (missingCount + b)

inductive RunOutcome
  | fatalJournalOpen
  | panicked
  | completed (processed missing : Nat)
deriving DecidableEq

/-- part_000 `main` (lines 223-262): `filemap, _ := listVersionedFiles(...)`
discards the walk error and keeps only the filemap; the run then exits with
an error (fatal) exactly when the journal cannot be opened
(`journal = none`), and otherwise reports the final counters. -/
def mainRun (walkResult : List String × Option WalkErr)
    (journal : Option (List String)) (caseSensitive : Bool) (filt : String) : RunOutcome :=
  let filemap := walkResult.1
  match journal with
  | none => .fatalJournalOpen
  | some lines =>
      match processDbStorageEntries filemap caseSensitive filt lines 0 0 with
      | none => .panicked
      | some (fileCount, missingCount) => .completed fileCount missingCount

/-! ## p4_storage_to_csv (src/p4_storage_to_csv/p4_storage_to_csv.go) -/

/-- The db.storage field offsets (p4_storage_to_csv.go lines 37-47, 53). -/
def DbStorageFieldRev : Nat := 3

def DbStorageFieldType : Nat := 4

def DbStorageFieldRefCount : Nat := 5

def DbStorageFieldDigest : Nat := 6

def DbStorageFieldSize : Nat := 7

def DbStorageFieldServerSize : Nat := 8

def DbStorageFieldCompCksum : Nat := 9

def DbStorageFieldDate : Nat := 10

def DbStorageFieldFileMarker : Nat := 3

/-- File-type bit masks (p4_storage_to_csv.go lines 125-133); Go `uint`. -/
def FileTypeBitMaskServerStorageType : Nat := 0xF

def FileTypeBitMaskServerStorageTypeModifier : Nat := 0xF0

def FileTypeBitMaskRevisionsNumber : Nat := 0xF00

def FileTypeBitMaskClientStorageType : Nat := 0x10D0000

def FileTypeBitMaskClientStorageTypeModifier : Nat := 0x720000

/-- The `ServerStorageType` constants of the CSV tool (lines 59-69); Go `uint`. -/
def RCSServerStorageType : Nat := 0x0

def ExternalServerStorageType : Nat := 0x8

/-- The five decoded sub-fields computed at p4_storage_to_csv.go
lines 219-223 (named as the CSV columns). -/
structure DecodedFileType where
  serverFileType : Nat
  serverFileTypeModifier : Nat
  revisionsNumber : Nat
  clientFileType : Nat
  clientFileTypeModifier : Nat
deriving DecidableEq

/-- The file-type decoding of p4_storage_to_csv.go lines 219-223: the five
independent masks applied to the packed `uint64` value; a total function by
construction. -/
def decodeFileType (fileType : Nat) : DecodedFileType :=
  ⟨fileType &&& FileTypeBitMaskServerStorageType,
   fileType &&& FileTypeBitMaskServerStorageTypeModifier,
   fileType &&& FileTypeBitMaskRevisionsNumber,
   fileType &&& FileTypeBitMaskClientStorageType,
   fileType &&& FileTypeBitMaskClientStorageTypeModifier⟩

/-- Result of one iteration of the scanner loop of the CSV tool
(p4_storage_to_csv.go lines 163-246). -/
inductive CsvOutcome
  | skippedPrefilter
  | panicked
  | skippedNumeric
  | record (filename revision : String) (fileType : Nat) (refCount : Int)
      (digest : String) (size serverSize : Int) (compCksum : String) (date : Int)
deriving DecidableEq

/-- One loop iteration of the CSV tool function `processDbStorageEntries`
(p4_storage_to_csv.go lines 163-246): the same structural pre-filters,
`extra` computation, filename slice (Go panic on invalid bounds) and
`@`-trim as the find-missing tool, then every remaining db.storage field is
read at its nominal offset plus `extra`; the file type uses
`strconv.ParseUint(_, 10, 64)`, reference count and date use `Atoi`, sizes
use `ParseInt(_, 10, 64)`, and any numeric parse failure skips the line. -/
def csvScanParts (parts : List String) : CsvOutcome :=
  if parts.length < 4 then .skippedPrefilter
  else if parts.getD 0 "" ≠ "@pv@" then .skippedPrefilter
  else if parts.getD 2 "" ≠ "@db.storage@" then .skippedPrefilter
  else
    let filenameExtraPartCount : Int := (parts.length : Int) - (DbStorageJournalFieldCount : Int)
    match goSlice parts (DbStorageFieldFileMarker : Int)
        ((DbStorageFieldFileMarker : Int) + filenameExtraPartCount) with
    | none => .panicked
    | some fnParts =>
      let filename := goTrimChar (goJoinSp fnParts) '@'
      let revision := parts.getD ((DbStorageFieldRev : Int) + filenameExtraPartCount).toNat ""
      match goParseUint64 (parts.getD ((DbStorageFieldType : Int) + filenameExtraPartCount).toNat "") with
      | none => .skippedNumeric
      | some fileType =>
        match goAtoi (parts.getD ((DbStorageFieldRefCount : Int) + filenameExtraPartCount).toNat "") with
        | none => .skippedNumeric
        | some refCount =>
          let digest := parts.getD ((DbStorageFieldDigest : Int) + filenameExtraPartCount).toNat ""
          match goAtoi (parts.getD ((DbStorageFieldSize : Int) + filenameExtraPartCount).toNat "") with
          | none => .skippedNumeric
          | some size =>
            match goAtoi (parts.getD ((DbStorageFieldServerSize : Int) + filenameExtraPartCount).toNat "") with
            | none => .skippedNumeric
            | some serverSize =>
              let compCksum := parts.getD ((DbStorageFieldCompCksum : Int) + filenameExtraPartCount).toNat ""
              match goAtoi (parts.getD ((DbStorageFieldDate : Int) + filenameExtraPartCount).toNat "") with
              | none => .skippedNumeric
              | some date =>
                  .record filename revision fileType refCount digest size serverSize compCksum date

/-- One loop iteration of the CSV tool function `processDbStorageEntries`
(p4_storage_to_csv.go lines 163-246): split the line on spaces, then run the
token-level scanner. -/
def csvScanLine (line : String) : CsvOutcome :=
  csvScanParts (goSplit line)

/-! ## The external journal line format and claim-side definitions -/

/-- Modelled from the spec: the external journal/checkpoint input format for
a `db.storage` record, which is not part of the sources of this repository.
Spec section 6 gives the shape `@pv@ <version> @db.storage@ ... ` —
space-separated fields ending in a trailing space, with the filename wrapped
in literal `@` delimiters and followed by the remaining eight table fields
(revision, type, refCount, digest, size, serverSize, compCksum, date). -/
def mkDbStorageLine (ver fn rev ftype refCount digest size serverSize compCksum date : String) :
    String :=
  "@pv@ " ++ ver ++ " @db.storage@ @" ++ fn ++ "@ " ++ rev ++ " " ++ ftype ++ " " ++
    refCount ++ " " ++ digest ++ " " ++ size ++ " " ++ serverSize ++ " " ++ compCksum ++
    " " ++ date ++ " "

/-- A journal field that contains no space (so it occupies exactly one
token of the split line). -/
def spaceFree (s : String) : Prop := ' ' ∉ s.data

instance (s : String) : Decidable (spaceFree s) := by
  unfold spaceFree; infer_instance

/-- Claim-side formulation (spec section 4.5): the revision token with its
surrounding delimiter characters stripped, i.e. without its first and last
character. -/
def stripDelims (s : String) : String := ⟨(s.data.drop 1).dropLast⟩

/-- Claim-side formulation (spec section 8): the packed file-type integer
formed from the five sub-field values. -/
def encodeFileType (k m r ck cm : Nat) : Nat := k ||| m ||| r ||| ck ||| cm

example : fmScanLine "" "@pv@ 1 @db.storage@ @f@ #1 0 1 D 1 1 C 5 " =
    .record "f" "#1" 0 := by decide
example : fmScanLine "" "@pv@ 1 @db.storage@ @a b@ #1 0 1 D 1 1 C 5 " =
    .record "a b" "#1" 0 := by decide
example : fmScanLine "" "@pv@ 1 @db.storage@ x" = .panicked := by decide
example : csvScanLine "@pv@ 1 @db.storage@ @f@ #1 0 1 D 1 1 C 5 " =
    .record "f" "#1" 0 1 "D" 1 1 "C" 5 := by decide
example : verifyRecord ["f,v/1"] true "f" "#1#" 0 = some ("f,v/1", false) := by decide
example : verifyRecord ["f,v/1.gz"] true "f" "#1#" 0 = some ("f,v/1", false) := by decide
example : verifyRecord [] true "f" "#1#" 1 = some ("f,d/1", true) := by decide
example : verifyRecord [] true "f" "#" 0 = none := by decide
example : readVersionsFromRCS ["1.1", "log", "@@", "text"] "//x,v" true [] =
    ["//x,v/1.1"] := by decide
example : readVersionsFromRCS ["log", "@@", "text"] "//x,v" true [] = ["//x,v/"] := by decide
example : mkDbStorageLine "1" "f" "#1" "0" "1" "D" "1" "1" "C" "5" =
    "@pv@ 1 @db.storage@ @f@ #1 0 1 D 1 1 C 5 " := by decide

/-! ## Lemmas about the split/join models -/

@[simp] theorem strData_append (a b : String) : (a ++ b).data = a.data ++ b.data := rfl

@[simp] theorem strMk_data (s : String) : (⟨s.data⟩ : String) = s := rfl

theorem goSplitSp_ne_nil (cs : List Char) : goSplitSp cs ≠ [] := by
  induction cs with
  | nil => simp [goSplitSp]
  | cons c cs ih =>
      simp only [goSplitSp]
      split
      · simp
      · split <;> simp

theorem goSplitSp_cons_space (cs : List Char) : goSplitSp (' ' :: cs) = [] :: goSplitSp cs := by
  simp [goSplitSp]

theorem goSplitSp_cons_ne (c : Char) (cs : List Char) (h : c ≠ ' ') :
    goSplitSp (c :: cs) = (c :: (goSplitSp cs).headD []) :: (goSplitSp cs).tail := by
  simp only [goSplitSp, if_neg h]
  cases hs : goSplitSp cs with
  | nil => exact absurd hs (goSplitSp_ne_nil cs)
  | cons t ts => simp

theorem goSplitSp_token (t rest : List Char) (h : ' ' ∉ t) :
    goSplitSp (t ++ ' ' :: rest) = t :: goSplitSp rest := by
  induction t with
  | nil => simp [goSplitSp_cons_space]
  | cons c t ih =>
      have hc : c ≠ ' ' := fun hh => h (hh ▸ List.mem_cons_self c t)
      have ht : ' ' ∉ t := fun hm => h (List.mem_cons_of_mem c hm)
      rw [List.cons_append, goSplitSp_cons_ne c _ hc, ih ht]
      simp

theorem goSplitSp_last (t : List Char) (h : ' ' ∉ t) : goSplitSp t = [t] := by
  induction t with
  | nil => rfl
  | cons c t ih =>
      have hc : c ≠ ' ' := fun hh => h (hh ▸ List.mem_cons_self c t)
      have ht : ' ' ∉ t := fun hm => h (List.mem_cons_of_mem c hm)
      rw [goSplitSp_cons_ne c _ hc, ih ht]
      simp

theorem joinSp_cons (t : List Char) (ts : List (List Char)) (h : ts ≠ []) :
    joinSp (t :: ts) = t ++ ' ' :: joinSp ts := by
  cases ts with
  | nil => exact absurd rfl h
  | cons t' ts' => rfl

theorem joinSp_append (xs ys : List (List Char)) (hx : xs ≠ []) (hy : ys ≠ []) :
    joinSp (xs ++ ys) = joinSp xs ++ ' ' :: joinSp ys := by
  induction xs with
  | nil => exact absurd rfl hx
  | cons t xs ih =>
      cases xs with
      | nil => simp [joinSp_cons t ys hy, joinSp]
      | cons t' xs' =>
          rw [List.cons_append, joinSp_cons t ((t' :: xs') ++ ys) (by simp),
            joinSp_cons t (t' :: xs') (by simp), ih (by simp)]
          simp

theorem joinSp_goSplitSp (cs : List Char) : joinSp (goSplitSp cs) = cs := by
  induction cs with
  | nil => rfl
  | cons c cs ih =>
      by_cases h : c = ' '
      · subst h
        rw [goSplitSp_cons_space, joinSp_cons _ _ (goSplitSp_ne_nil cs), ih]
        rfl
      · rw [goSplitSp_cons_ne c cs h]
        cases hs : goSplitSp cs with
        | nil => exact absurd hs (goSplitSp_ne_nil cs)
        | cons t ts =>
            have ih' : joinSp (t :: ts) = cs := hs ▸ ih
            cases ts with
            | nil => simpa [joinSp] using congrArg (c :: ·) ih'
            | cons t'' ts'' =>
                rw [joinSp_cons t (t'' :: ts'') (by simp)] at ih'
                simp only [List.headD_cons, List.tail_cons]
                rw [joinSp_cons (c :: t) (t'' :: ts'') (by simp), ← ih']
                simp

theorem goSplitSp_join (ts : List (List Char)) (hne : ts ≠ [])
    (h : ∀ t ∈ ts, ' ' ∉ t) : goSplitSp (joinSp ts) = ts := by
  induction ts with
  | nil => exact absurd rfl hne
  | cons t ts ih =>
      cases ts with
      | nil => exact goSplitSp_last t (h t (List.mem_cons_self t []))
      | cons t' ts' =>
          rw [joinSp_cons t (t' :: ts') (by simp),
            goSplitSp_token t _ (h t (List.mem_cons_self t _)),
            ih (by simp) (fun u hu => h u (List.mem_cons_of_mem t hu))]

theorem goSplitSp_spacefree (cs : List Char) : ∀ t ∈ goSplitSp cs, ' ' ∉ t := by
  induction cs with
  | nil =>
      intro t ht
      simp only [goSplitSp, List.mem_singleton] at ht
      subst ht; simp
  | cons c cs ih =>
      by_cases h : c = ' '
      · subst h
        rw [goSplitSp_cons_space]
        intro t ht
        rcases List.mem_cons.mp ht with h1 | h2
        · subst h1; simp
        · exact ih t h2
      · rw [goSplitSp_cons_ne c cs h]
        cases hs : goSplitSp cs with
        | nil => exact absurd hs (goSplitSp_ne_nil cs)
        | cons t0 ts0 =>
            intro t ht
            simp only [List.headD_cons, List.tail_cons] at ht
            rcases List.mem_cons.mp ht with h1 | h2
            · subst h1
              intro hmem
              rcases List.mem_cons.mp hmem with h3 | h4
              · exact h h3.symm
              · exact ih t0 (hs ▸ List.mem_cons_self t0 ts0) h4
            · exact ih t (hs ▸ List.mem_cons_of_mem t0 h2)

theorem goSplitSp_length (cs : List Char) :
    (goSplitSp cs).length = cs.count ' ' + 1 := by
  induction cs with
  | nil => rfl
  | cons c cs ih =>
      by_cases h : c = ' '
      · subst h
        rw [goSplitSp_cons_space]
        simp only [List.length_cons, ih, List.count_cons]
        simp
      · rw [goSplitSp_cons_ne c cs h]
        cases hs : goSplitSp cs with
        | nil => exact absurd hs (goSplitSp_ne_nil cs)
        | cons t0 ts0 =>
            have : (t0 :: ts0).length = cs.count ' ' + 1 := hs ▸ ih
            simp only [List.length_cons] at this
            simp only [List.headD_cons, List.tail_cons, List.length_cons, List.count_cons]
            simp [h, Ne.symm h, this]

/-- Append `'@'` to the last element of a token list (how the closing
filename delimiter attaches to the last filename piece when the line is
split on spaces). -/
def wrapLastAmp : List (List Char) → List (List Char)
  | [] => []
  | [t] => [t ++ ['@']]
  | t :: t' :: ts => t :: wrapLastAmp (t' :: ts)

/-- Wrap a nonempty token list in `'@'` delimiters: prepend `'@'` to the
first element and append `'@'` to the last. -/
def wrapAmp : List (List Char) → List (List Char)
  | [] => [['@', '@']]
  | [t] => [('@' :: t) ++ ['@']]
  | t :: t' :: ts => ('@' :: t) :: wrapLastAmp (t' :: ts)

theorem wrapLastAmp_join (ts : List (List Char)) (h : ts ≠ []) :
    joinSp (wrapLastAmp ts) = joinSp ts ++ ['@'] := by
  induction ts with
  | nil => exact absurd rfl h
  | cons t ts ih =>
      cases ts with
      | nil => rfl
      | cons t' ts' =>
          rw [show wrapLastAmp (t :: t' :: ts') = t :: wrapLastAmp (t' :: ts') from rfl,
            joinSp_cons t (wrapLastAmp (t' :: ts'))
              (by cases ts' <;> simp [wrapLastAmp]),
            ih (by simp), joinSp_cons t (t' :: ts') (by simp)]
          simp

theorem wrapAmp_join (ts : List (List Char)) (h : ts ≠ []) :
    joinSp (wrapAmp ts) = '@' :: (joinSp ts ++ ['@']) := by
  cases ts with
  | nil => exact absurd rfl h
  | cons t ts =>
      cases ts with
      | nil => rfl
      | cons t' ts' =>
          rw [show wrapAmp (t :: t' :: ts') = ('@' :: t) :: wrapLastAmp (t' :: ts') from rfl,
            joinSp_cons ('@' :: t) (wrapLastAmp (t' :: ts'))
              (by cases ts' <;> simp [wrapLastAmp]),
            wrapLastAmp_join (t' :: ts') (by simp), joinSp_cons t (t' :: ts') (by simp)]
          simp

theorem wrapLastAmp_length (ts : List (List Char)) :
    (wrapLastAmp ts).length = ts.length := by
  induction ts with
  | nil => rfl
  | cons t ts ih =>
      cases ts with
      | nil => rfl
      | cons t' ts' => simpa [wrapLastAmp] using ih

theorem wrapAmp_length (ts : List (List Char)) (h : ts ≠ []) :
    (wrapAmp ts).length = ts.length := by
  cases ts with
  | nil => exact absurd rfl h
  | cons t ts =>
      cases ts with
      | nil => rfl
      | cons t' ts' => simp [wrapAmp, wrapLastAmp_length]

theorem wrapLastAmp_spacefree (ts : List (List Char)) (h : ∀ t ∈ ts, ' ' ∉ t) :
    ∀ t ∈ wrapLastAmp ts, ' ' ∉ t := by
  induction ts with
  | nil => intro t ht; simp [wrapLastAmp] at ht
  | cons t ts ih =>
      cases ts with
      | nil =>
          intro u hu
          simp only [wrapLastAmp, List.mem_singleton] at hu
          subst hu
          intro hm
          rcases List.mem_append.mp hm with h1 | h2
          · exact h t (List.mem_cons_self t []) h1
          · simp at h2
      | cons t' ts' =>
          intro u hu
          rcases List.mem_cons.mp hu with h1 | h2
          · exact h u (h1 ▸ List.mem_cons_self t _)
          · exact ih (fun v hv => h v (List.mem_cons_of_mem t hv)) u h2

theorem wrapAmp_spacefree (ts : List (List Char)) (h : ∀ t ∈ ts, ' ' ∉ t) :
    ∀ t ∈ wrapAmp ts, ' ' ∉ t := by
  cases ts with
  | nil =>
      intro u hu
      simp only [wrapAmp, List.mem_singleton] at hu
      subst hu; simp
  | cons t ts =>
      cases ts with
      | nil =>
          intro u hu
          simp only [wrapAmp, List.mem_singleton] at hu
          subst hu
          intro hm
          rcases List.mem_cons.mp hm with h1 | h2
          · simp at h1
          · rcases List.mem_append.mp h2 with h3 | h4
            · exact h t (List.mem_cons_self t []) h3
            · simp at h4
      | cons t' ts' =>
          intro u hu
          rcases List.mem_cons.mp hu with h1 | h2
          · subst h1
            intro hm
            rcases List.mem_cons.mp hm with h3 | h4
            · simp at h3
            · exact h t (List.mem_cons_self t _) h4
          · exact wrapLastAmp_spacefree (t' :: ts')
              (fun v hv => h v (List.mem_cons_of_mem t hv)) u h2

theorem dropWhile_of_head_ne (l : List Char) (c : Char) (h : l.head? ≠ some c) :
    l.dropWhile (· = c) = l := by
  cases l with
  | nil => rfl
  | cons a l' =>
      have ha : a ≠ c := by
        intro hh
        exact h (by simp [hh])
      simp [List.dropWhile_cons, ha]

/-- Trimming `'@'` from a string of the shape `'@' ++ fn ++ '@'` recovers
`fn`, provided `fn` itself neither starts nor ends with `'@'`. -/
theorem goTrimChar_wrap (fn : List Char) (h1 : fn.head? ≠ some '@')
    (h2 : fn.getLast? ≠ some '@') :
    goTrimChar ⟨'@' :: (fn ++ ['@'])⟩ '@' = ⟨fn⟩ := by
  unfold goTrimChar
  cases fn with
  | nil => rfl
  | cons c fn' =>
      have hc : c ≠ '@' := by
        intro hh; exact h1 (by simp [hh])
      have hstep1 : ('@' :: ((c :: fn') ++ ['@'])).dropWhile (· = '@') = (c :: fn') ++ ['@'] := by
        simp [List.dropWhile_cons, hc]
      rw [hstep1, List.reverse_append]
      have hstep2 : (['@'].reverse ++ (c :: fn').reverse).dropWhile (· = '@')
          = (c :: fn').reverse.dropWhile (· = '@') := by
        simp [List.dropWhile_cons]
      rw [hstep2, dropWhile_of_head_ne _ _ (by rw [List.head?_reverse]; exact h2)]
      simp

theorem wrapAmp_ne_nil (ts : List (List Char)) : wrapAmp ts ≠ [] := by
  cases ts with
  | nil => simp [wrapAmp]
  | cons t ts => cases ts <;> simp [wrapAmp]

theorem dataLitA : ("@pv@ " : String).data = ['@', 'p', 'v', '@', ' '] := rfl

theorem dataLitB : (" @db.storage@ @" : String).data =
    [' ', '@', 'd', 'b', '.', 's', 't', 'o', 'r', 'a', 'g', 'e', '@', ' ', '@'] := rfl

theorem dataLitC : ("@ " : String).data = ['@', ' '] := rfl

theorem dataLitD : (" " : String).data = [' '] := rfl

theorem dataLitE : ("@pv@" : String).data = ['@', 'p', 'v', '@'] := rfl

theorem dataLitF : ("@db.storage@" : String).data =
    ['@', 'd', 'b', '.', 's', 't', 'o', 'r', 'a', 'g', 'e', '@'] := rfl

/-- Splitting a spec-shaped db.storage journal line on spaces yields the
marker tokens, the `@`-wrapped filename pieces, the eight remaining field
tokens and a final empty token from the trailing space. -/
theorem mkDbStorageLine_split
    (ver fn rev ftype rc dg sz ssz ck dt : String)
    (hver : spaceFree ver) (hrev : spaceFree rev) (hft : spaceFree ftype)
    (hrc : spaceFree rc) (hdg : spaceFree dg) (hsz : spaceFree sz)
    (hssz : spaceFree ssz) (hck : spaceFree ck) (hdt : spaceFree dt) :
    goSplitSp (mkDbStorageLine ver fn rev ftype rc dg sz ssz ck dt).data =
      ["@pv@".data, ver.data, "@db.storage@".data] ++ wrapAmp (goSplitSp fn.data) ++
        [rev.data, ftype.data, rc.data, dg.data, sz.data, ssz.data, ck.data, dt.data, []] := by
  have hPne := goSplitSp_ne_nil fn.data
  have hPsf := goSplitSp_spacefree fn.data
  have hdata : (mkDbStorageLine ver fn rev ftype rc dg sz ssz ck dt).data =
      joinSp (["@pv@".data, ver.data, "@db.storage@".data] ++ wrapAmp (goSplitSp fn.data) ++
        [rev.data, ftype.data, rc.data, dg.data, sz.data, ssz.data, ck.data, dt.data, []]) := by
    rw [joinSp_append _ _ (by simp) (by simp),
      joinSp_append _ _ (by simp) (wrapAmp_ne_nil _),
      wrapAmp_join _ hPne, joinSp_goSplitSp]
    unfold mkDbStorageLine
    simp [joinSp_cons, joinSp, dataLitA, dataLitB, dataLitC, dataLitD, dataLitE, dataLitF,
      List.append_assoc]
  rw [hdata]
  refine goSplitSp_join _ (by simp) ?_
  intro t ht
  rcases List.mem_append.mp ht with h | h
  · rcases List.mem_append.mp h with h | h
    · rcases List.mem_cons.mp h with h1 | h
      · subst h1; decide
      · rcases List.mem_cons.mp h with h1 | h
        · subst h1; exact hver
        · rcases List.mem_cons.mp h with h1 | h
          · subst h1; decide
          · simp at h
    · exact wrapAmp_spacefree _ hPsf t h
  · rcases List.mem_cons.mp h with h1 | h
    · subst h1; exact hrev
    · rcases List.mem_cons.mp h with h1 | h
      · subst h1; exact hft
      · rcases List.mem_cons.mp h with h1 | h
        · subst h1; exact hrc
        · rcases List.mem_cons.mp h with h1 | h
          · subst h1; exact hdg
          · rcases List.mem_cons.mp h with h1 | h
            · subst h1; exact hsz
            · rcases List.mem_cons.mp h with h1 | h
              · subst h1; exact hssz
              · rcases List.mem_cons.mp h with h1 | h
                · subst h1; exact hck
                · rcases List.mem_cons.mp h with h1 | h
                  · subst h1; exact hdt
                  · rcases List.mem_cons.mp h with h1 | h
                    · subst h1; simp
                    · simp at h

theorem getD_append_len (xs ys : List String) (n : Nat) (d : String) :
    (xs ++ ys).getD (xs.length + n) d = ys.getD n d := by
  induction xs with
  | nil => simp
  | cons x xs ih =>
      simp only [List.cons_append, List.length_cons]
      rw [show xs.length + 1 + n = (xs.length + n) + 1 by omega, List.getD_cons_succ, ih]

theorem goSlice_middle (as bs cs : List String) :
    goSlice (as ++ bs ++ cs) (as.length : Int) ((as.length : Int) + (bs.length : Int)) =
      some bs := by
  unfold goSlice
  rw [if_pos]
  · have h1 : ((as.length : Int)).toNat = as.length := by omega
    have h2 : ((as.length : Int) + (bs.length : Int) - (as.length : Int)).toNat = bs.length := by
      omega
    rw [h1, h2, List.append_assoc, List.drop_left, List.take_left]
  · refine ⟨by omega, by omega, ?_⟩
    have : ((as ++ bs ++ cs).length : Int) =
        (as.length : Int) + (bs.length : Int) + (cs.length : Int) := by
      push_cast [List.length_append]
      ring
    omega

theorem strMk_nil : (⟨[]⟩ : String) = "" := rfl

/-- Evaluation of the token-level scanner on a token list passing the
pre-filters, when the filename slice is known. -/
theorem fmScanParts_go (filt : String) (parts : List String)
    (h4 : ¬ parts.length < 4)
    (h0 : parts.getD 0 "" = "@pv@")
    (h2 : parts.getD 2 "" = "@db.storage@")
    (mid : List String)
    (hsl : goSlice parts 3
      (3 + ((parts.length : Int) - (DbStorageJournalFieldCount : Int))) = some mid) :
    fmScanParts filt parts =
      (if 0 < filt.length ∧ ¬ goStartsWith (goTrimChar (goJoinSp mid) '@') filt then
        .filteredOut (goTrimChar (goJoinSp mid) '@')
       else
         match goAtoi
             (parts.getD
               (4 + ((parts.length : Int) - (DbStorageJournalFieldCount : Int))).toNat "") with
         | none =>
             .badFileType (goTrimChar (goJoinSp mid) '@')
               (parts.getD
                 (3 + ((parts.length : Int) - (DbStorageJournalFieldCount : Int))).toNat "")
         | some fileType =>
             .record (goTrimChar (goJoinSp mid) '@')
               (parts.getD
                 (3 + ((parts.length : Int) - (DbStorageJournalFieldCount : Int))).toNat "")
               fileType) := by
  unfold fmScanParts
  rw [if_neg h4, if_neg (fun hh => hh h0), if_neg (fun hh => hh h2)]
  simp only [hsl]

theorem goSlice_middle' (as bs cs : List String) (lo hi : Int)
    (hlo : lo = (as.length : Int)) (hhi : hi = (as.length : Int) + (bs.length : Int)) :
    goSlice (as ++ bs ++ cs) lo hi = some bs := by
  subst hlo; subst hhi; exact goSlice_middle as bs cs

/-- C1: a spec-shaped db.storage journal line whose filename contains
exactly N internal spaces (N = 0, 1, 3) splits into `12 + N + 1` tokens, and
the scanner (`extra = tokenCount - 12`, slice `parts[3:3+extra]`,
space-join, `@`-trim) recovers the identical original filename string. -/
theorem c1_filename_reassembly
    (N : Nat) (hN : N = 0 ∨ N = 1 ∨ N = 3)
    (ver fn rev ftype rc dg sz ssz ck dt : String)
    (hcount : fn.data.count ' ' = N)
    (hfn1 : fn.data.head? ≠ some '@') (hfn2 : fn.data.getLast? ≠ some '@')
    (hver : spaceFree ver) (hrev : spaceFree rev) (hft : spaceFree ftype)
    (hrc : spaceFree rc) (hdg : spaceFree dg) (hsz : spaceFree sz)
    (hssz : spaceFree ssz) (hck : spaceFree ck) (hdt : spaceFree dt) :
    (goSplit (mkDbStorageLine ver fn rev ftype rc dg sz ssz ck dt)).length
        = DbStorageJournalFieldCount + N + 1 ∧
      (fmScanLine "" (mkDbStorageLine ver fn rev ftype rc dg sz ssz ck dt)).filenameOf
        = some fn := by
  have hPne := goSplitSp_ne_nil fn.data
  have hsplit := mkDbStorageLine_split ver fn rev ftype rc dg sz ssz ck dt
    hver hrev hft hrc hdg hsz hssz hck hdt
  have hparts : goSplit (mkDbStorageLine ver fn rev ftype rc dg sz ssz ck dt) =
      ["@pv@", ver, "@db.storage@"] ++
        (wrapAmp (goSplitSp fn.data)).map (fun l => (⟨l⟩ : String)) ++
        [rev, ftype, rc, dg, sz, ssz, ck, dt, ""] := by
    unfold goSplit
    rw [hsplit]
    simp [strMk_nil]
  have hwlen : ((wrapAmp (goSplitSp fn.data)).map (fun l => (⟨l⟩ : String))).length = N + 1 := by
    simp [wrapAmp_length _ hPne, goSplitSp_length, hcount]
  have hlen : (goSplit (mkDbStorageLine ver fn rev ftype rc dg sz ssz ck dt)).length
      = N + 13 := by
    rw [hparts]
    simp only [List.length_append, List.length_cons, List.length_nil, hwlen]
    omega
  refine ⟨by rw [hlen]; unfold DbStorageJournalFieldCount; omega, ?_⟩
  have h4 : ¬ (goSplit (mkDbStorageLine ver fn rev ftype rc dg sz ssz ck dt)).length < 4 := by
    rw [hlen]; omega
  have h0 : (goSplit (mkDbStorageLine ver fn rev ftype rc dg sz ssz ck dt)).getD 0 ""
      = "@pv@" := by
    rw [hparts]; rfl
  have h2 : (goSplit (mkDbStorageLine ver fn rev ftype rc dg sz ssz ck dt)).getD 2 ""
      = "@db.storage@" := by
    rw [hparts]; rfl
  have hsl : goSlice (goSplit (mkDbStorageLine ver fn rev ftype rc dg sz ssz ck dt)) 3
      (3 + (((goSplit (mkDbStorageLine ver fn rev ftype rc dg sz ssz ck dt)).length : Int) -
        (DbStorageJournalFieldCount : Int))) =
      some ((wrapAmp (goSplitSp fn.data)).map (fun l => (⟨l⟩ : String))) := by
    rw [hlen, hparts]
    refine goSlice_middle' _ _ _ _ _ ?_ ?_
    · simp
    · rw [hwlen]
      simp only [List.length_cons, List.length_nil]
      unfold DbStorageJournalFieldCount
      push_cast
      omega
  have hfnstr : goTrimChar
      (goJoinSp ((wrapAmp (goSplitSp fn.data)).map (fun l => (⟨l⟩ : String)))) '@' = fn := by
    unfold goJoinSp
    rw [List.map_map]
    have hid : (String.data ∘ fun l => (⟨l⟩ : String)) = id := by funext l; rfl
    rw [hid, List.map_id, wrapAmp_join _ hPne, joinSp_goSplitSp]
    have := goTrimChar_wrap fn.data hfn1 hfn2
    simpa using this
  unfold fmScanLine
  rw [fmScanParts_go "" _ h4 h0 h2 _ hsl]
  rw [if_neg (fun h => Nat.lt_irrefl 0 h.1)]
  rw [hfnstr]
  cases hA : goAtoi ((goSplit (mkDbStorageLine ver fn rev ftype rc dg sz ssz ck dt)).getD
      (4 + (((goSplit (mkDbStorageLine ver fn rev ftype rc dg sz ssz ck dt)).length : Int) -
        (DbStorageJournalFieldCount : Int))).toNat "") with
  | none => rfl
  | some ft => rfl

/-- Witness for C1 at a concrete input: a filename with exactly one internal
space round-trips through the scanner. -/
theorem c1_filename_reassembly_witness :
    (("//depot/a b.txt" : String).data.count ' ' = 1) ∧
      (fmScanLine ""
        (mkDbStorageLine "3" "//depot/a b.txt" "#1" "0" "1" "ABC" "100" "100" "XYZ"
          "1610000000")).filenameOf = some "//depot/a b.txt" :=
  ⟨by decide,
    (c1_filename_reassembly 1 (Or.inr (Or.inl rfl)) "3" "//depot/a b.txt" "#1" "0" "1" "ABC"
      "100" "100" "XYZ" "1610000000" (by decide) (by decide) (by decide) (by decide)
      (by decide) (by decide) (by decide) (by decide) (by decide) (by decide) (by decide)
      (by decide)).2⟩

/-! ## C2: negative extra — the scanner panics instead of skipping -/

/-- C2 counterexample: the line `@pv@ 1 @db.storage@ x` passes all three
structural pre-filters and has 4 tokens, so `extra = -8` and the slice
`parts[3:3+extra]` is out of bounds: the scanner outcome is a Go panic, not
a skip-and-continue. -/
theorem c2_counterexample :
    fmScanLine "" "@pv@ 1 @db.storage@ x" = FMOutcome.panicked := by decide

/-- C2 amended: for every line passing the structural pre-filters with fewer
than 12 tokens, the computed `extra` is negative, the slice bounds are
invalid, and the scanner panics (aborting the run); such lines are not
skipped. -/
theorem c2_amended_negative_extra_panics (filt line : String)
    (h4 : ¬ (goSplit line).length < 4)
    (h0 : (goSplit line).getD 0 "" = "@pv@")
    (h2 : (goSplit line).getD 2 "" = "@db.storage@")
    (h12 : (goSplit line).length < 12) :
    fmScanLine filt line = FMOutcome.panicked := by
  unfold fmScanLine fmScanParts
  rw [if_neg h4, if_neg (fun hh => hh h0), if_neg (fun hh => hh h2)]
  have hsl : goSlice (goSplit line) 3
      (3 + (((goSplit line).length : Int) - (DbStorageJournalFieldCount : Int))) = none := by
    unfold goSlice
    rw [if_neg]
    unfold DbStorageJournalFieldCount
    omega
  simp only [hsl]

/-- Witness for the C2 amended statement at a concrete input. -/
theorem c2_amended_witness :
    (¬ (goSplit "@pv@ 9 @db.storage@ a b").length < 4) ∧
      (goSplit "@pv@ 9 @db.storage@ a b").getD 0 "" = "@pv@" ∧
      (goSplit "@pv@ 9 @db.storage@ a b").getD 2 "" = "@db.storage@" ∧
      (goSplit "@pv@ 9 @db.storage@ a b").length < 12 ∧
      fmScanLine "x" "@pv@ 9 @db.storage@ a b" = FMOutcome.panicked :=
  ⟨by decide, by decide, by decide, by decide,
    c2_amended_negative_extra_panics "x" "@pv@ 9 @db.storage@ a b" (by decide) (by decide)
      (by decide) (by decide)⟩

/-! ## C3 and C9: verification-mode path construction -/

theorem goStrSlice_strip (s : String) (h : 2 ≤ s.length) :
    goStrSlice s 1 ((s.length : Int) - 1) = some (stripDelims s) := by
  unfold goStrSlice stripDelims
  rw [if_pos (by omega)]
  have h1 : (((s.length : Int) - 1) - 1).toNat = s.length - 2 := by omega
  rw [h1]
  have h2 : (s.data.drop 1).dropLast = (s.data.drop 1).take ((s.data.drop 1).length - 1) :=
    List.dropLast_eq_take _
  have h3 : (s.data.drop 1).length - 1 = s.length - 2 := by
    simp only [List.length_drop]
    rfl
  rw [h2, h3]
  rfl

/-- C3: for every parsed storage record whose revision token has its two
delimiter characters (length ≥ 2), the verification step does not panic, the
expected on-disk path is `depotfile,v/rev` when the decoded server-storage
kind `fileType & 0xF` is RCS (0) and `depotfile,d/rev` otherwise (`rev`
being the revision token with first and last character stripped), and the
record is reported missing if and only if neither that path nor the path
with `.gz` appended is present in the index. -/
theorem c3_missing_iff (filemap : List String) (caseSensitive : Bool) (fn rev : String)
    (ft : Int) (h : 2 ≤ rev.length) :
    verifyRecord filemap caseSensitive fn rev ft =
      some ((if serverStorageTypeOf ft = RCSStorageType then fn ++ ",v/" ++ stripDelims rev
              else fn ++ ",d/" ++ stripDelims rev),
        (!(pathExistsOnDisk filemap
            (if serverStorageTypeOf ft = RCSStorageType then fn ++ ",v/" ++ stripDelims rev
              else fn ++ ",d/" ++ stripDelims rev) caseSensitive) &&
          !(pathExistsOnDisk filemap
            ((if serverStorageTypeOf ft = RCSStorageType then fn ++ ",v/" ++ stripDelims rev
              else fn ++ ",d/" ++ stripDelims rev) ++ ".gz") caseSensitive))) := by
  unfold verifyRecord
  simp only [goStrSlice_strip rev h]
  cases hA : pathExistsOnDisk filemap
      (if serverStorageTypeOf ft = RCSStorageType then fn ++ ",v/" ++ stripDelims rev
        else fn ++ ",d/" ++ stripDelims rev) caseSensitive with
  | true => simp [hA]
  | false =>
      cases hB : pathExistsOnDisk filemap
          ((if serverStorageTypeOf ft = RCSStorageType then fn ++ ",v/" ++ stripDelims rev
            else fn ++ ",d/" ++ stripDelims rev) ++ ".gz") caseSensitive with
      | true => simp [hA, hB]
      | false => simp [hA, hB]

/-- Witness for C3 at concrete inputs: an RCS record found via its exact
path, and a non-RCS record found only via its `.gz` variant (reported
present, not missing). -/
theorem c3_missing_iff_witness :
    verifyRecord ["//d/f,v/1"] true "//d/f" "#1#" 0 = some ("//d/f,v/1", false) ∧
      verifyRecord ["//d/g,d/7.gz"] true "//d/g" "#7#" 1 = some ("//d/g,d/7", false) ∧
      verifyRecord [] true "//d/f" "#1#" 0 = some ("//d/f,v/1", true) :=
  ⟨(c3_missing_iff ["//d/f,v/1"] true "//d/f" "#1#" 0 (by decide)).trans (by decide),
    (c3_missing_iff ["//d/g,d/7.gz"] true "//d/g" "#7#" 1 (by decide)).trans (by decide),
    (c3_missing_iff [] true "//d/f" "#1#" 0 (by decide)).trans (by decide)⟩

/-- C9 counterexample: a journal line whose revision token is the single
character `#` is accepted by the scanner, but the unconditional
`revision[1:len(revision)-1]` slice then panics: the program does not
continue. -/
theorem c9_counterexample :
    fmScanLine "" "@pv@ 1 @db.storage@ @f@ # 0 1 D 1 1 C 5 9" = FMOutcome.record "f" "#" 0 ∧
      fmLineEffect [] true "" "@pv@ 1 @db.storage@ @f@ # 0 1 D 1 1 C 5 9" = none :=
  ⟨by decide, by decide⟩

/-- C9 amended: the path construction strips exactly the first and last
character of the revision token unconditionally; for every token of length
at least 2 this yields a (possibly silently corrupted) path and the run
continues, but for an empty or one-character token the Go slice
`revision[1:len(revision)-1]` panics and the run aborts. -/
theorem c9_amended_strip_unconditional (filemap : List String) (caseSensitive : Bool)
    (fn rev : String) (ft : Int) :
    (2 ≤ rev.length →
      ∃ missing, verifyRecord filemap caseSensitive fn rev ft =
        some ((if serverStorageTypeOf ft = RCSStorageType then fn ++ ",v/" ++ stripDelims rev
          else fn ++ ",d/" ++ stripDelims rev), missing)) ∧
      (rev.length < 2 → verifyRecord filemap caseSensitive fn rev ft = none) := by
  constructor
  · intro h
    exact ⟨_, c3_missing_iff filemap caseSensitive fn rev ft h⟩
  · intro h
    unfold verifyRecord
    have hsl : goStrSlice rev 1 ((rev.length : Int) - 1) = none := by
      unfold goStrSlice
      rw [if_neg]
      omega
    simp only [hsl]

/-- Witness for the C9 amended statement: a length-4 token continues (with
first and last character stripped), a length-1 token panics. -/
theorem c9_amended_witness :
    (∃ missing, verifyRecord [] true "f" "#12#" 5 =
      some ((if serverStorageTypeOf 5 = RCSStorageType then "f" ++ ",v/" ++ stripDelims "#12#"
        else "f" ++ ",d/" ++ stripDelims "#12#"), missing)) ∧
      verifyRecord [] true "f" "#" 5 = none :=
  ⟨(c9_amended_strip_unconditional [] true "f" "#12#" 5).1 (by decide),
    (c9_amended_strip_unconditional [] true "f" "#" 5).2 (by decide)⟩

/-! ## C8: the file-type decoder round-trips -/

theorem land_lor_distrib (x y m : Nat) : (x ||| y) &&& m = (x &&& m) ||| (y &&& m) := by
  apply Nat.eq_of_testBit_eq
  intro i
  simp only [Nat.testBit_land, Nat.testBit_lor]
  cases hx : x.testBit i <;> cases hy : y.testBit i <;> cases hm : m.testBit i <;> rfl

theorem masked_land_zero (y M N : Nat) (hy : y &&& N = y) (hNM : N &&& M = 0) :
    y &&& M = 0 := by
  apply Nat.eq_of_testBit_eq
  intro i
  simp only [Nat.testBit_land, Nat.zero_testBit]
  have h1 : y.testBit i = (y.testBit i && N.testBit i) := by
    conv_lhs => rw [← hy]
    rw [Nat.testBit_land]
  have h2 : (N.testBit i && M.testBit i) = false := by
    rw [← Nat.testBit_land, hNM, Nat.zero_testBit]
  cases hYi : y.testBit i
  · rfl
  · rw [hYi] at h1
    cases hNi : N.testBit i
    · rw [hNi] at h1; simp at h1
    · rw [hNi] at h2
      simp only [Bool.true_and] at h2
      simp [h2]

/-- C8: the decoder is a total function of the packed integer (by
construction), and it round-trips: for every valid server-storage kind 0-8
and every sub-field value within its own mask (`0xF0`, `0xF00`, `0x10D0000`,
`0x720000`), decoding the integer formed from the five fields recovers
exactly the same structured sub-field values. -/
theorem c8_decode_roundtrip (k m r ck cm : Nat)
    (hk : k ≤ 8)
    (hm : m &&& FileTypeBitMaskServerStorageTypeModifier = m)
    (hr : r &&& FileTypeBitMaskRevisionsNumber = r)
    (hck : ck &&& FileTypeBitMaskClientStorageType = ck)
    (hcm : cm &&& FileTypeBitMaskClientStorageTypeModifier = cm) :
    decodeFileType (encodeFileType k m r ck cm) = ⟨k, m, r, ck, cm⟩ := by
  have hk' : k &&& FileTypeBitMaskServerStorageType = k := by
    interval_cases k <;> decide
  unfold decodeFileType encodeFileType
  simp only [DecodedFileType.mk.injEq]
  refine ⟨?_, ?_, ?_, ?_, ?_⟩
  · rw [land_lor_distrib, land_lor_distrib, land_lor_distrib, land_lor_distrib, hk',
      masked_land_zero m _ _ hm (by decide), masked_land_zero r _ _ hr (by decide),
      masked_land_zero ck _ _ hck (by decide), masked_land_zero cm _ _ hcm (by decide)]
    simp
  · rw [land_lor_distrib, land_lor_distrib, land_lor_distrib, land_lor_distrib, hm,
      masked_land_zero k _ _ hk' (by decide), masked_land_zero r _ _ hr (by decide),
      masked_land_zero ck _ _ hck (by decide), masked_land_zero cm _ _ hcm (by decide)]
    simp
  · rw [land_lor_distrib, land_lor_distrib, land_lor_distrib, land_lor_distrib, hr,
      masked_land_zero k _ _ hk' (by decide), masked_land_zero m _ _ hm (by decide),
      masked_land_zero ck _ _ hck (by decide), masked_land_zero cm _ _ hcm (by decide)]
    simp
  · rw [land_lor_distrib, land_lor_distrib, land_lor_distrib, land_lor_distrib, hck,
      masked_land_zero k _ _ hk' (by decide), masked_land_zero m _ _ hm (by decide),
      masked_land_zero r _ _ hr (by decide), masked_land_zero cm _ _ hcm (by decide)]
    simp
  · rw [land_lor_distrib, land_lor_distrib, land_lor_distrib, land_lor_distrib, hcm,
      masked_land_zero k _ _ hk' (by decide), masked_land_zero m _ _ hm (by decide),
      masked_land_zero r _ _ hr (by decide), masked_land_zero ck _ _ hck (by decide)]
    simp

/-- Witness for C8 at concrete sub-field values. -/
theorem c8_decode_roundtrip_witness :
    (3 : Nat) ≤ 8 ∧
      decodeFileType (encodeFileType 3 0x30 0xB00 0x1040000 0x620000) =
        ⟨3, 0x30, 0xB00, 0x1040000, 0x620000⟩ :=
  ⟨by decide,
    c8_decode_roundtrip 3 0x30 0xB00 0x1040000 0x620000 (by decide) (by decide) (by decide)
      (by decide) (by decide)⟩

/-! ## C4 and C7: directory-walk failures -/

/-- C4 counterexample: the filesystem root cannot be walked at all, so
`listVersionedFiles` returns an empty filemap together with an error — yet
`main` discards the error, runs verification against the empty index, and
the run completes normally instead of aborting as fatal. -/
theorem c4_counterexample :
    listVersionedFiles "/depot" false (fun _ => none) none = ([], some WalkErr.rootFail) ∧
      mainRun (listVersionedFiles "/depot" false (fun _ => none) none)
        (some ["@pv@ 1 @db.storage@ @f@ #1# 0 1 D 1 1 C 5 "]) false "" =
        RunOutcome.completed 1 1 :=
  ⟨rfl, by decide⟩

/-- C4 amended: `main` discards the walk error component entirely — the run
outcome is identical whatever walk error occurred (verification proceeds
against the partial or empty filemap), and the run aborts as fatal exactly
when the journal cannot be opened. -/
theorem c4_amended_walk_error_discarded (filemap : List String) (err err' : Option WalkErr)
    (journal : Option (List String)) (caseSensitive : Bool) (filt : String) :
    mainRun (filemap, err) journal caseSensitive filt =
        mainRun (filemap, err') journal caseSensitive filt ∧
      mainRun (filemap, err) none caseSensitive filt = RunOutcome.fatalJournalOpen :=
  ⟨rfl, rfl⟩

/-- C7 counterexample: an RCS container that cannot be opened does not
merely skip that container — the walk halts with the error, and a second,
perfectly readable file under the root is never indexed (the filemap stays
empty). -/
theorem c7_counterexample :
    listVersionedFiles "/d" false (fun _ => none)
        (some [⟨"/d/a,v", false⟩, ⟨"/d/b", false⟩]) =
      ([], some (WalkErr.rcsOpen "/d/a,v")) := by decide

/-- C7 amended: when an RCS container cannot be opened,
`readVersionsFromRCS` returns an error that the walk callback propagates,
halting the walk: the filemap keeps exactly the registrations made for the
entries before the failing container, the error is reported, and the
entries after it are never indexed. -/
theorem c7_amended_open_error_halts_walk (depotPath : String) (caseSensitive : Bool)
    (fs : String → Option (List String)) (pre post : List DirEntry) (bad : DirEntry)
    (m0 m1 : List String)
    (hpre : walkEntries depotPath caseSensitive fs pre m0 = (m1, none))
    (hdir : bad.isDir = false)
    (hrcs : goHasSuffix (normalizePath depotPath bad.path) ",v" = true)
    (hopen : fs bad.path = none) :
    walkEntries depotPath caseSensitive fs (pre ++ bad :: post) m0 =
      (m1, some (WalkErr.rcsOpen bad.path)) := by
  induction pre generalizing m0 with
  | nil =>
      have hm : m0 = m1 := by
        simpa [walkEntries] using hpre
      subst hm
      simp only [List.nil_append, walkEntries]
      unfold walkCallback
      rw [hdir]
      simp only [Bool.false_eq_true, if_false, hrcs, if_true, hopen]
  | cons e es ih =>
      simp only [walkEntries] at hpre ⊢
      cases hcb : walkCallback depotPath caseSensitive fs m0 e with
      | ok m' =>
          rw [hcb] at hpre
          exact ih m' hpre
      | error err =>
          rw [hcb] at hpre
          simp at hpre

/-- Witness for the C7 amended statement: one plain file before the
unopenable container is indexed; one plain file after it is not. -/
theorem c7_amended_witness :
    walkEntries "/d" false (fun _ => none) [⟨"/d/x", false⟩] [] = (["//x"], none) ∧
      walkEntries "/d" false (fun _ => none)
        ([⟨"/d/x", false⟩] ++ ⟨"/d/a,v", false⟩ :: [⟨"/d/b", false⟩]) [] =
        (["//x"], some (WalkErr.rcsOpen "/d/a,v")) :=
  ⟨by decide,
    c7_amended_open_error_halts_walk "/d" false (fun _ => none) [⟨"/d/x", false⟩]
      [⟨"/d/b", false⟩] ⟨"/d/a,v", false⟩ [] ["//x"] (by decide) (by decide) (by decide) rfl⟩

/-! ## C5 and C6: the RCS revision scan -/

theorem strAppend_assoc (a b c : String) : (a ++ b) ++ c = a ++ (b ++ c) := by
  apply String.ext
  simp [List.append_assoc]

theorem strAppend_empty (s : String) : s ++ "" = s := by
  apply String.ext
  simp

theorem rcsStep_buf_pos (caseSensitive : Bool) (path : String) (st : RcsSt) (line : String) :
    (rcsStep caseSensitive path st line).buf = st.buf.set st.pos line ∧
      (rcsStep caseSensitive path st line).pos = (st.pos + 1) % 4 := by
  simp only [rcsStep]
  split
  · split <;> exact ⟨rfl, rfl⟩
  · exact ⟨rfl, rfl⟩

theorem rcsStep_filemap_no_text (caseSensitive : Bool) (path : String) (st : RcsSt)
    (line : String) (hl : line ≠ "text") :
    (rcsStep caseSensitive path st line).filemap = st.filemap := by
  simp only [rcsStep]
  rw [if_neg hl]

theorem rcsFold_no_text (caseSensitive : Bool) (path : String) (ls : List String)
    (h : "text" ∉ ls) (st : RcsSt) :
    (ls.foldl (rcsStep caseSensitive path) st).filemap = st.filemap := by
  induction ls generalizing st with
  | nil => rfl
  | cons l ls ih =>
      have hl : l ≠ "text" := fun hh => h (hh ▸ List.mem_cons_self l ls)
      have hls : "text" ∉ ls := fun hm => h (List.mem_cons_of_mem l hm)
      simp only [List.foldl_cons]
      rw [ih hls, rcsStep_filemap_no_text caseSensitive path st l hl]

theorem rcsFold_valid (caseSensitive : Bool) (path : String) (ls : List String) (st : RcsSt)
    (h1 : st.buf.length = 4) (h2 : st.pos < 4) :
    (ls.foldl (rcsStep caseSensitive path) st).buf.length = 4 ∧
      (ls.foldl (rcsStep caseSensitive path) st).pos < 4 := by
  induction ls generalizing st with
  | nil => exact ⟨h1, h2⟩
  | cons l ls ih =>
      simp only [List.foldl_cons]
      refine ih _ ?_ ?_
      · rw [(rcsStep_buf_pos caseSensitive path st l).1]
        simp [h1]
      · rw [(rcsStep_buf_pos caseSensitive path st l).2]
        omega

/-- Folding a full sentinel block `rev, log, @@, text` from any valid state
registers exactly the key `path ++ "/" ++ rev`. -/
theorem rcsBlock_register (caseSensitive : Bool) (path : String) (st : RcsSt) (r : String)
    (hbuf : st.buf.length = 4) (hpos : st.pos < 4) (hr : r ≠ "text") :
    ([r, "log", "@@", "text"].foldl (rcsStep caseSensitive path) st).filemap =
      registerExistingPath st.filemap (path ++ "/" ++ r) caseSensitive := by
  have hne1 : ("log" : String) ≠ "text" := by decide
  have hne2 : ("@@" : String) ≠ "text" := by decide
  rcases st with ⟨buf, pos, fm⟩
  simp only at hbuf hpos ⊢
  rcases buf with _ | ⟨b0, buf⟩
  · simp at hbuf
  rcases buf with _ | ⟨b1, buf⟩
  · simp at hbuf
  rcases buf with _ | ⟨b2, buf⟩
  · simp at hbuf
  rcases buf with _ | ⟨b3, buf⟩
  · simp at hbuf
  rcases buf with _ | ⟨b4, buf⟩
  case cons => simp at hbuf
  interval_cases pos <;>
    simp [rcsStep, sentinelScan, sentinelBuffer, hr, hne1, hne2, List.set, List.getD]

/-- Folding a broken block `rev, log, text` (no `@@` line) from any valid
state registers nothing. -/
theorem rcsBlockBroken_no_register (caseSensitive : Bool) (path : String) (st : RcsSt)
    (r : String) (hbuf : st.buf.length = 4) (hpos : st.pos < 4) (hr : r ≠ "text") :
    ([r, "log", "text"].foldl (rcsStep caseSensitive path) st).filemap = st.filemap := by
  have hne1 : ("log" : String) ≠ "text" := by decide
  have hne2 : ("log" : String) ≠ "@@" := by decide
  rcases st with ⟨buf, pos, fm⟩
  simp only at hbuf hpos ⊢
  rcases buf with _ | ⟨b0, buf⟩
  · simp at hbuf
  rcases buf with _ | ⟨b1, buf⟩
  · simp at hbuf
  rcases buf with _ | ⟨b2, buf⟩
  · simp at hbuf
  rcases buf with _ | ⟨b3, buf⟩
  · simp at hbuf
  rcases buf with _ | ⟨b4, buf⟩
  case cons => simp at hbuf
  interval_cases pos <;>
    simp [rcsStep, sentinelScan, sentinelBuffer, hr, hne1, hne2, List.set, List.getD]

/-- C5: for every RCS container consisting of any `text`-free prefix, a
single revision block `rev, log, @@, text` matching the three-line sentinel
pattern, and any `text`-free suffix, the scan registers exactly one
revision, under the key `<container-path-without-,v> ++ ",v/" ++ <revision>`
(lower-cased when case-sensitivity is off); the same container with the
sentinel pattern broken (missing `@@` line) registers zero revisions. -/
theorem c5_rcs_sentinel_scan (caseSensitive : Bool) (base r : String)
    (pre post : List String)
    (hpre : "text" ∉ pre) (hr : r ≠ "text") (hpost : "text" ∉ post) :
    readVersionsFromRCS (pre ++ [r, "log", "@@", "text"] ++ post) (base ++ ",v")
        caseSensitive [] =
      [if caseSensitive then base ++ ",v/" ++ r else goToLower (base ++ ",v/" ++ r)] ∧
      readVersionsFromRCS (pre ++ [r, "log", "text"] ++ post) (base ++ ",v")
        caseSensitive [] = [] := by
  have hkey : (base ++ ",v") ++ "/" ++ r = base ++ ",v/" ++ r := by
    rw [strAppend_assoc base ",v" "/", show (",v" : String) ++ "/" = ",v/" by decide]
  have hinit1 : (["", "", "", ""] : List String).length = 4 := by decide
  constructor
  · unfold readVersionsFromRCS
    rw [List.foldl_append, List.foldl_append]
    have hv := rcsFold_valid caseSensitive (base ++ ",v") pre ⟨["", "", "", ""], 0, []⟩
      hinit1 (by decide)
    have hfm1 : (pre.foldl (rcsStep caseSensitive (base ++ ",v"))
        ⟨["", "", "", ""], 0, []⟩).filemap = [] :=
      rcsFold_no_text caseSensitive (base ++ ",v") pre hpre _
    rw [rcsFold_no_text caseSensitive (base ++ ",v") post hpost _,
      rcsBlock_register caseSensitive (base ++ ",v") _ r hv.1 hv.2 hr, hfm1, hkey]
    unfold registerExistingPath
    simp
  · unfold readVersionsFromRCS
    rw [List.foldl_append, List.foldl_append]
    have hv := rcsFold_valid caseSensitive (base ++ ",v") pre ⟨["", "", "", ""], 0, []⟩
      hinit1 (by decide)
    have hfm1 : (pre.foldl (rcsStep caseSensitive (base ++ ",v"))
        ⟨["", "", "", ""], 0, []⟩).filemap = [] :=
      rcsFold_no_text caseSensitive (base ++ ",v") pre hpre _
    rw [rcsFold_no_text caseSensitive (base ++ ",v") post hpost _,
      rcsBlockBroken_no_register caseSensitive (base ++ ",v") _ r hv.1 hv.2 hr, hfm1]

/-- Witness for C5 at a concrete container. -/
theorem c5_rcs_sentinel_scan_witness :
    readVersionsFromRCS (["head"] ++ ["1.1", "log", "@@", "text"] ++ ["content"]) ("//x" ++ ",v")
        true [] =
      [if true then "//x" ++ ",v/" ++ "1.1" else goToLower ("//x" ++ ",v/" ++ "1.1")] ∧
      readVersionsFromRCS (["head"] ++ ["1.1", "log", "text"] ++ ["content"]) ("//x" ++ ",v")
        true [] = [] :=
  c5_rcs_sentinel_scan true "//x" "1.1" ["head"] ["content"] (by decide) (by decide) (by decide)

/-- C6 counterexample: the 3-line container `log`, `@@`, `text` — fewer
than 4 total lines — registers one revision entry (with an empty revision
string, read from an initial empty slot of the circular buffer), not zero. -/
theorem c6_counterexample :
    readVersionsFromRCS ["log", "@@", "text"] "//f,v" true [] ≠ [] := by decide

/-- C6 amended: an RCS container with fewer than 4 total lines registers
zero revisions (with no error), except for the exact 3-line container
`log`, `@@`, `text`, which registers the single key `path ++ "/"` whose
revision part is the empty string taken from the initial buffer contents. -/
theorem c6_amended_short_container (lines : List String) (path : String)
    (caseSensitive : Bool) (h : lines.length < 4) :
    readVersionsFromRCS lines path caseSensitive [] =
      if lines = ["log", "@@", "text"] then
        [if caseSensitive then path ++ "/" else goToLower (path ++ "/")]
      else [] := by
  have hCTL : ("log" : String) ≠ "text" := by decide
  have hCAT : ("@@" : String) ≠ "text" := by decide
  have hCLA : ("log" : String) ≠ "@@" := by decide
  have hkey : path ++ "/" ++ "" = path ++ "/" := strAppend_empty _
  rcases lines with _ | ⟨a, lines⟩
  · simp [readVersionsFromRCS]
  rcases lines with _ | ⟨b, lines⟩
  · by_cases ha : a = "text" <;>
      simp [readVersionsFromRCS, rcsStep, sentinelScan, sentinelBuffer, ha, List.set,
        List.getD, registerExistingPath]
  rcases lines with _ | ⟨c, lines⟩
  · by_cases ha : a = "text" <;> by_cases hb : b = "text" <;> by_cases hab : a = "@@" <;>
      simp [readVersionsFromRCS, rcsStep, sentinelScan, sentinelBuffer, ha, hb, hab,
        List.set, List.getD, registerExistingPath]
  rcases lines with _ | ⟨d, lines⟩
  · by_cases ha : a = "text" <;> by_cases hb : b = "text" <;> by_cases hc : c = "text" <;>
      by_cases hab : a = "@@" <;> by_cases hbc : b = "@@" <;> by_cases hal : a = "log" <;>
      simp [readVersionsFromRCS, rcsStep, sentinelScan, sentinelBuffer, ha, hb, hc, hab,
        hbc, hal, hkey, hCTL, hCAT, hCLA, List.set, List.getD, registerExistingPath]
  · simp only [List.length_cons] at h
    omega

/-- Witness for the C6 amended statement at a concrete short container. -/
theorem c6_amended_short_container_witness :
    ((["1.1", "log"] : List String).length < 4) ∧
      readVersionsFromRCS ["1.1", "log"] "//f,v" true [] =
        (if (["1.1", "log"] : List String) = ["log", "@@", "text"] then
          [if true then "//f,v" ++ "/" else goToLower ("//f,v" ++ "/")]
        else []) :=
  ⟨by decide, c6_amended_short_container ["1.1", "log"] "//f,v" true (by decide)⟩

/-! ## C10: the two embedded scanners -/

/-- When `ParseUint` succeeds and the value fits in `int64`, `Atoi` succeeds
on the same token with the same value. -/
theorem goAtoi_of_parseUint (t : String) (u : Nat) (hU : goParseUint64 t = some u)
    (hlt : u < 2 ^ 63) : goAtoi t = some (u : Int) := by
  unfold goParseUint64 at hU
  cases hp : parseDigits t.data with
  | none => rw [hp] at hU; simp at hU
  | some n =>
      rw [hp] at hU
      simp only [Option.some_bind] at hU
      have hn : n = u := by
        by_cases hb : n ≤ 2 ^ 64 - 1
        · rw [if_pos hb] at hU
          exact Option.some.inj hU
        · rw [if_neg hb] at hU
          simp at hU
      subst hn
      have hdig : t.data ≠ [] ∧ t.data.all Char.isDigit := by
        unfold parseDigits at hp
        by_cases he : t.data = []
        · rw [if_pos he] at hp; simp at hp
        · rw [if_neg he] at hp
          by_cases hd : t.data.all Char.isDigit
          · exact ⟨he, hd⟩
          · rw [if_neg hd] at hp; simp at hp
      unfold goAtoi
      split
      · exact absurd (by assumption) hdig.1
      · next rest heq =>
          have h5 := List.all_eq_true.mp hdig.2 '+' (by rw [heq]; exact List.mem_cons_self _ _)
          exact absurd h5 (by decide)
      · next rest heq =>
          have h5 := List.all_eq_true.mp hdig.2 '-' (by rw [heq]; exact List.mem_cons_self _ _)
          exact absurd h5 (by decide)
      · rw [hp]
        simp only [Option.some_bind]
        rw [if_pos (by omega)]

theorem fmScanParts_pref_iff (filt : String) (parts : List String) :
    fmScanParts filt parts = FMOutcome.skippedPrefilter ↔
      (parts.length < 4 ∨ ¬parts.getD 0 "" = "@pv@" ∨ ¬parts.getD 2 "" = "@db.storage@") := by
  simp only [fmScanParts]
  by_cases h4 : parts.length < 4
  · rw [if_pos h4]
    exact iff_of_true rfl (Or.inl h4)
  · rw [if_neg h4]
    by_cases h0 : parts.getD 0 "" = "@pv@"
    · by_cases h2 : parts.getD 2 "" = "@db.storage@"
      · rw [if_neg (fun hh => hh h0), if_neg (fun hh => hh h2)]
        simp only [h4, h0, h2, not_true_eq_false, or_self, or_false, false_or, iff_false]
        split
        · simp
        · split
          · simp
          · split <;> simp
      · rw [if_neg (fun hh => hh h0), if_pos h2]
        exact iff_of_true rfl (Or.inr (Or.inr h2))
    · rw [if_pos h0]
      exact iff_of_true rfl (Or.inr (Or.inl h0))

theorem csvScanParts_pref_iff (parts : List String) :
    csvScanParts parts = CsvOutcome.skippedPrefilter ↔
      (parts.length < 4 ∨ ¬parts.getD 0 "" = "@pv@" ∨ ¬parts.getD 2 "" = "@db.storage@") := by
  simp only [csvScanParts]
  by_cases h4 : parts.length < 4
  · rw [if_pos h4]
    exact iff_of_true rfl (Or.inl h4)
  · rw [if_neg h4]
    by_cases h0 : parts.getD 0 "" = "@pv@"
    · by_cases h2 : parts.getD 2 "" = "@db.storage@"
      · rw [if_neg (fun hh => hh h0), if_neg (fun hh => hh h2)]
        simp only [h4, h0, h2, not_true_eq_false, or_self, or_false, false_or, iff_false]
        split
        · simp
        · split
          · simp
          · split
            · simp
            · split
              · simp
              · split
                · simp
                · split <;> simp
      · rw [if_neg (fun hh => hh h0), if_pos h2]
        exact iff_of_true rfl (Or.inr (Or.inr h2))
    · rw [if_pos h0]
      exact iff_of_true rfl (Or.inr (Or.inl h0))

theorem fmScanParts_panic_iff (filt : String) (parts : List String) :
    fmScanParts filt parts = FMOutcome.panicked ↔
      (¬parts.length < 4 ∧ parts.getD 0 "" = "@pv@" ∧ parts.getD 2 "" = "@db.storage@" ∧
        goSlice parts 3
          (3 + ((parts.length : Int) - (DbStorageJournalFieldCount : Int))) = none) := by
  simp only [fmScanParts]
  by_cases h4 : parts.length < 4
  · rw [if_pos h4]
    exact iff_of_false (by simp) (fun hc => hc.1 h4)
  · rw [if_neg h4]
    by_cases h0 : parts.getD 0 "" = "@pv@"
    · by_cases h2 : parts.getD 2 "" = "@db.storage@"
      · rw [if_neg (fun hh => hh h0), if_neg (fun hh => hh h2)]
        cases hsl : goSlice parts 3
            (3 + ((parts.length : Int) - (DbStorageJournalFieldCount : Int))) with
        | none => exact iff_of_true rfl ⟨h4, h0, h2, rfl⟩
        | some mid =>
            simp only [h4, h0, h2, hsl, not_false_eq_true, true_and, iff_false]
            split
            · simp
            · split <;> simp
      · rw [if_neg (fun hh => hh h0), if_pos h2]
        exact iff_of_false (by simp) (fun hc => h2 hc.2.2.1)
    · rw [if_pos h0]
      exact iff_of_false (by simp) (fun hc => h0 hc.2.1)

theorem csvScanParts_panic_iff (parts : List String) :
    csvScanParts parts = CsvOutcome.panicked ↔
      (¬parts.length < 4 ∧ parts.getD 0 "" = "@pv@" ∧ parts.getD 2 "" = "@db.storage@" ∧
        goSlice parts 3
          (3 + ((parts.length : Int) - (DbStorageJournalFieldCount : Int))) = none) := by
  simp only [csvScanParts]
  simp only [DbStorageFieldFileMarker, DbStorageFieldRev, DbStorageFieldType,
    DbStorageFieldRefCount, DbStorageFieldDigest, DbStorageFieldSize, DbStorageFieldServerSize,
    DbStorageFieldCompCksum, DbStorageFieldDate, Nat.cast_ofNat]
  by_cases h4 : parts.length < 4
  · rw [if_pos h4]
    exact iff_of_false (by simp) (fun hc => hc.1 h4)
  · rw [if_neg h4]
    by_cases h0 : parts.getD 0 "" = "@pv@"
    · by_cases h2 : parts.getD 2 "" = "@db.storage@"
      · rw [if_neg (fun hh => hh h0), if_neg (fun hh => hh h2)]
        cases hsl : goSlice parts 3
            (3 + ((parts.length : Int) - (DbStorageJournalFieldCount : Int))) with
        | none => exact iff_of_true rfl ⟨h4, h0, h2, rfl⟩
        | some mid =>
            simp only [h4, h0, h2, hsl, not_false_eq_true, true_and, iff_false]
            split
            · simp
            · split
              · simp
              · split
                · simp
                · split
                  · simp
                  · split <;> simp
      · rw [if_neg (fun hh => hh h0), if_pos h2]
        exact iff_of_false (by simp) (fun hc => h2 hc.2.2.1)
    · rw [if_pos h0]
      exact iff_of_false (by simp) (fun hc => h0 hc.2.1)

/-- On any token list that the CSV scanner accepts as a record, the
find-missing scanner (with an empty filter) accepts the same record: same
filename, same revision token, same file-type value (possible whenever the
file-type value also fits in `int64`, i.e. is below `2^63`). -/
theorem csvRecord_to_fmRecord (parts : List String) (fn rev : String) (ft : Nat) (rc : Int)
    (dg : String) (sz ssz : Int) (ck : String) (dt : Int)
    (hrec : csvScanParts parts = CsvOutcome.record fn rev ft rc dg sz ssz ck dt)
    (hlt : ft < 2 ^ 63) :
    fmScanParts "" parts = FMOutcome.record fn rev (ft : Int) := by
  simp only [csvScanParts, DbStorageFieldFileMarker, DbStorageFieldRev, DbStorageFieldType,
    DbStorageFieldRefCount, DbStorageFieldDigest, DbStorageFieldSize, DbStorageFieldServerSize,
    DbStorageFieldCompCksum, DbStorageFieldDate, Nat.cast_ofNat] at hrec
  simp only [fmScanParts]
  by_cases h4 : parts.length < 4
  · rw [if_pos h4] at hrec
    simp at hrec
  rw [if_neg h4] at hrec ⊢
  by_cases h0 : parts.getD 0 "" ≠ "@pv@"
  · rw [if_pos h0] at hrec
    simp at hrec
  rw [if_neg h0] at hrec ⊢
  by_cases h2 : parts.getD 2 "" ≠ "@db.storage@"
  · rw [if_pos h2] at hrec
    simp at hrec
  rw [if_neg h2] at hrec ⊢
  cases hsl : goSlice parts 3
      (3 + ((parts.length : Int) - (DbStorageJournalFieldCount : Int))) with
  | none =>
      rw [hsl] at hrec
      simp at hrec
  | some mid =>
      rw [hsl] at hrec
      simp only [hsl]
      rw [if_neg (fun h => Nat.lt_irrefl 0 h.1)]
      cases hU : goParseUint64 (parts.getD
          (4 + ((parts.length : Int) - (DbStorageJournalFieldCount : Int))).toNat "") with
      | none => rw [hU] at hrec; simp at hrec
      | some u =>
          rw [hU] at hrec
          cases hRC : goAtoi (parts.getD
              (5 + ((parts.length : Int) - (DbStorageJournalFieldCount : Int))).toNat "") with
          | none => rw [hRC] at hrec; simp at hrec
          | some rcv =>
              rw [hRC] at hrec
              cases hSZ : goAtoi (parts.getD
                  (7 + ((parts.length : Int) - (DbStorageJournalFieldCount : Int))).toNat "") with
              | none => rw [hSZ] at hrec; simp at hrec
              | some szv =>
                  rw [hSZ] at hrec
                  cases hSSZ : goAtoi (parts.getD
                      (8 + ((parts.length : Int) -
                        (DbStorageJournalFieldCount : Int))).toNat "") with
                  | none => rw [hSSZ] at hrec; simp at hrec
                  | some sszv =>
                      rw [hSSZ] at hrec
                      cases hDT : goAtoi (parts.getD
                          (10 + ((parts.length : Int) -
                            (DbStorageJournalFieldCount : Int))).toNat "") with
                      | none => rw [hDT] at hrec; simp at hrec
                      | some dtv =>
                          rw [hDT] at hrec
                          injection hrec with e1 e2 e3 e4 e5 e6 e7 e8 e9
                          subst e1
                          subst e2
                          subst e3
                          rw [goAtoi_of_parseUint _ u hU hlt]

/-- C10 counterexample: the two scanners do not accept the same lines. On
this line the file-type token parses but the reference count (`X`) does
not: the find-missing scanner accepts it as a record while the CSV scanner
skips it. -/
theorem c10_counterexample :
    fmScanLine "" "@pv@ 1 @db.storage@ @f@ #1# 7 X D 1 1 C 5 9" =
        FMOutcome.record "f" "#1#" 7 ∧
      csvScanLine "@pv@ 1 @db.storage@ @f@ #1# 7 X D 1 1 C 5 9" = CsvOutcome.skippedNumeric :=
  ⟨by decide, by decide⟩

/-- C10 amended: on every journal line the two scanners apply identical
structural pre-filters and panic on identical inputs, and every line the
CSV scanner accepts as a record whose file-type value also fits in `int64`
is accepted by the find-missing scanner (empty filter) with the identical
filename, revision token, and numeric file-type value. They do not accept
exactly the same lines: the CSV scanner additionally rejects lines whose
reference-count, size, server-size or date fields fail to parse, and the
two file-type parsers differ on signed tokens and on values `≥ 2^63`. -/
theorem c10_amended_scanners_agree (line : String) :
    ((fmScanLine "" line = FMOutcome.skippedPrefilter) ↔
        (csvScanLine line = CsvOutcome.skippedPrefilter)) ∧
      ((fmScanLine "" line = FMOutcome.panicked) ↔ (csvScanLine line = CsvOutcome.panicked)) ∧
      (∀ fn rev ft rc dg sz ssz ck dt,
        csvScanLine line = CsvOutcome.record fn rev ft rc dg sz ssz ck dt → ft < 2 ^ 63 →
          fmScanLine "" line = FMOutcome.record fn rev (ft : Int)) := by
  unfold fmScanLine csvScanLine
  refine ⟨?_, ?_, ?_⟩
  · rw [fmScanParts_pref_iff, csvScanParts_pref_iff]
  · rw [fmScanParts_panic_iff, csvScanParts_panic_iff]
  · intro fn rev ft rc dg sz ssz ck dt hrec hlt
    exact csvRecord_to_fmRecord (goSplit line) fn rev ft rc dg sz ssz ck dt hrec hlt

/-- Witness for the C10 amended statement at a concrete accepted line. -/
theorem c10_amended_witness :
    csvScanLine "@pv@ 1 @db.storage@ @f@ #1# 7 3 D 1 1 C 5 9" =
        CsvOutcome.record "f" "#1#" 7 3 "D" 1 1 "C" 5 ∧
      fmScanLine "" "@pv@ 1 @db.storage@ @f@ #1# 7 3 D 1 1 C 5 9" =
        FMOutcome.record "f" "#1#" 7 :=
  ⟨by decide,
    (c10_amended_scanners_agree "@pv@ 1 @db.storage@ @f@ #1# 7 3 D 1 1 C 5 9").2.2
      "f" "#1#" 7 3 "D" 1 1 "C" 5 (by decide) (by decide)⟩
